import Mathlib

/-!
A verification development for the ftag tag store (ftag.c).

The development shallowly embeds the store layer of ftag.c together with the
semantics of the SQLite statements that the program executes.  Databases are
modelled as lists of rows in rowid (insertion) order; an SQLite connection is
modelled by its durable (committed) content, the content visible through the
connection, and whether an explicit transaction is open.  Row identifiers
follow the SQLite rowid rule for INTEGER PRIMARY KEY columns: a fresh row
receives one more than the largest existing identifier.

Failure modes that the embedding covers are exactly the ones reachable from
the modelled operations: a UNIQUE index violation on the file_tag insert, and
BEGIN failing inside an already open transaction.  Out-of-memory and
preparation failures of the constant SQL strings are not modelled.

Where the observable behaviour of a query depends on the row order produced
by the SQLite engine (the queries of ftag.c carry no ORDER BY), the embedding
follows the evaluation actually performed by the engine on this schema, which
was traced with EXPLAIN QUERY PLAN:
  - SELECT DISTINCT relative_path FROM file scans the covering unique index
    file_path_uq, hence yields the distinct paths in ascending order;
  - likewise SELECT DISTINCT name FROM tag scans tag_name_uq;
  - the per-tag filter SELECT DISTINCT f.relative_path FROM file AS f,
    file_tag AS x WHERE f.id = x.file_id AND x.tag_id = ? scans file via
    file_path_uq, hence also yields paths ascending;
  - a UNION of such selects is evaluated through a temporary b-tree, hence
    yields the distinct paths of the union in ascending order;
  - the tags-of-a-file query locates the file row through file_path_uq, then
    walks file_tag through the unique index file_tag_uq with file_id pinned,
    which enumerates tag identifiers in ascending identifier order, and
    resolves each tag row by rowid; DISTINCT is applied by a temporary
    b-tree that preserves arrival order.  The resulting names therefore
    arrive in tag identifier (creation) order, not in name order.
-/

/-- Status code SUCCESS from the ftag header. -/
def SUCCESS : Int := 0

/-- Status code ERROR from the ftag header. -/
def ERROR : Int := 1

/-- Content of an ftag database: the three tables created by
run_init_db_sql, each as its list of rows in rowid order.  The schema also
declares unique indexes file_path_uq on file(relative_path), tag_name_uq on
tag(name) and file_tag_uq on file_tag(file_id, tag_id); their effect appears
in the insert operations below. -/
structure Store where
  files : List (Int × String)
  tags : List (Int × String)
  file_tag : List (Int × Int)
deriving DecidableEq

/-- The store produced by run_init_db_sql on a fresh database: three empty
tables. -/
def emptyStore : Store := ⟨[], [], []⟩

/-- SQLite rowid assignment for an INTEGER PRIMARY KEY column when no value
is supplied: one more than the largest rowid in the table (zero if empty). -/
def nextId (rows : List (Int × String)) : Int :=
  (rows.foldl (fun m r => max m r.1) 0) + 1

/-- INSERT OR IGNORE INTO tag (name) VALUES (:tag) as executed by tag_file:
a conflict on the unique index tag_name_uq is ignored, otherwise a fresh row
is appended. -/
def insertOrIgnoreTag (st : Store) (t : String) : Store :=
  if st.tags.any (fun tr => tr.2 = t) then st
  else { st with tags := st.tags ++ [(nextId st.tags, t)] }

/-- INSERT OR IGNORE INTO file (relative_path) VALUES (:file) as executed by
tag_file, under the unique index file_path_uq. -/
def insertOrIgnoreFile (st : Store) (f : String) : Store :=
  if st.files.any (fun fr => fr.2 = f) then st
  else { st with files := st.files ++ [(nextId st.files, f)] }

/-- The row set produced by the SELECT of the third statement of tag_file:
the cross join of file and tag restricted to the bound path and name. -/
def assocPairs (st : Store) (f t : String) : List (Int × Int) :=
  (st.files.filter (fun fr => fr.2 = f)).flatMap
    (fun fr => (st.tags.filter (fun tr => tr.2 = t)).map (fun tr => (fr.1, tr.1)))

/-- INSERT INTO file_tag (file_id, tag_id) SELECT ... as executed by
tag_file.  This statement has no OR IGNORE clause, so a conflict with the
unique index file_tag_uq aborts the whole statement (none); otherwise the
selected pairs are appended. -/
def insertFileTag (st : Store) (f t : String) : Option Store :=
  let ps := assocPairs st f t
  if ps.any (fun p => decide (p ∈ st.file_tag)) then none
  else some { st with file_tag := st.file_tag ++ ps }

/-- An open SQLite connection: the durable content (what rolling back any
open transaction would leave), the content visible through the connection,
whether an explicit transaction is open, and, for on-disk databases, the
location of the backing file (none for a pure in-memory database). -/
structure Conn where
  committed : Store
  current : Store
  inTxn : Bool
  location : Option (List String × String)
deriving DecidableEq

/-- A freshly opened in-memory connection after run_init_db_sql. -/
def freshConn : Conn := ⟨emptyStore, emptyStore, false, none⟩

/-- sqlite3_close on a connection: an open transaction is rolled back, so
the surviving database content is the committed part. -/
def close_db (c : Conn) : Store := c.committed

/-- tag_file from ftag.c.  The C arguments are nullable strings, hence
Option String.  After the null check the function prepares and steps, one at
a time, the statements BEGIN; INSERT OR IGNORE tag; INSERT OR IGNORE file;
INSERT file_tag ... SELECT ...; COMMIT, returning ERROR at the first
statement whose step fails, without any rollback.  BEGIN fails when a
transaction is already open; the file_tag insert fails on a file_tag_uq
conflict. -/
def tag_file (c : Conn) (file tag : Option String) : Int × Conn :=
  match file, tag with
  | some f, some t =>
    if c.inTxn then (ERROR, c)
    else
      let c1 : Conn := { c with inTxn := true }
      let s1 := insertOrIgnoreTag c1.current t
      let s2 := insertOrIgnoreFile s1 f
      match insertFileTag s2 f t with
      | none => (ERROR, { c1 with current := s2 })
      | some s3 => (SUCCESS, { c1 with committed := s3, current := s3, inTxn := false })
  | _, _ => (ERROR, c)

/-- Lexicographic order on character lists, by code point.  On the ASCII
and, more generally, UTF-8 data at hand this is the byte order of the
memcmp-based BINARY collation that SQLite applies to TEXT (UTF-8 encoding
preserves code-point order). -/
def charsLe : List Char → List Char → Bool
  | [], _ => true
  | _ :: _, [] => false
  | a :: as, b :: bs => if a = b then charsLe as bs else decide (a < b)

/-- BINARY-collation comparison of two strings. -/
def strLe (a b : String) : Bool := charsLe a.data b.data

/-- strLe as a relation, for the sorting lemmas. -/
def strLeP (a b : String) : Prop := strLe a b = true

instance : DecidableRel strLeP := fun _ _ => inferInstanceAs (Decidable (_ = true))

/-- Ascending distinct output of an SQLite evaluation that ranges over a
unique index or drains a UNION temp b-tree: the distinct elements of the
multiset, in ascending BINARY-collation order. -/
def sortDedup (l : List String) : List String :=
  l.dedup.insertionSort strLeP

/-- Ascending distinct tag identifiers, as enumerated by a scan of the
unique index file_tag_uq with the file_id column pinned. -/
def sortDedupInt (l : List Int) : List Int :=
  l.dedup.insertionSort (fun a b => a ≤ b)

/-- Arrival-order DISTINCT, as applied through a temporary b-tree: keeps the
first occurrence of each value in arrival order. -/
def distinctKeepFirst : List String → List String
  | [] => []
  | x :: rest => x :: (distinctKeepFirst rest).filter (fun y => y ≠ x)

/-- One lookup of get_tag_ids from ftag.c: run SELECT id FROM tag WHERE
name=? and take the first row, or -1 when the select yields no row. -/
def resolveTagId (st : Store) (n : String) : Int :=
  match st.tags.find? (fun tr => tr.2 = n) with
  | some tr => tr.1
  | none => -1

/-- get_tag_ids loops resolveTagId over the names, filling the buffer in
order. -/
def get_tag_ids (st : Store) (tagv : List String) : List Int :=
  tagv.map (resolveTagId st)

/-- The row set of one arm of the filter query, SELECT DISTINCT
f.relative_path FROM file AS f, file_tag AS x WHERE f.id = x.file_id AND
x.tag_id = ?: the engine scans file through the covering unique index
file_path_uq and probes file_tag_uq, so the distinct matching paths arrive
in ascending path order. -/
def pathsWithTagId (st : Store) (t : Int) : List String :=
  sortDedup ((st.files.filter (fun fr => decide ((fr.1, t) ∈ st.file_tag))).map
    (fun fr => fr.2))

/-- filter_ids_any_tag from ftag.c: build one arm per identifier joined by
UNION and return the prepared cursor rows.  For an empty identifier list the
C code computes a negative allocation size, whose huge size_t conversion
makes malloc fail, so the function returns null (none).  A UNION is drained
from a temporary b-tree, hence distinct rows in ascending order; a single
arm is already distinct and ascending by the index scan. -/
def filter_ids_any_tag (st : Store) (ids : List Int) : Option (List String) :=
  if ids.isEmpty then none
  else some (sortDedup (ids.flatMap (fun t => pathsWithTagId st t)))

/-- filter_all from ftag.c: SELECT DISTINCT relative_path FROM file, a scan
of the covering unique index file_path_uq, hence ascending distinct
paths. -/
def filter_all (st : Store) : List String :=
  sortDedup (st.files.map (fun fr => fr.2))

/-- Filter flag FILTER_ANY_TAG. -/
def FILTER_ANY_TAG : Nat := 1

/-- Filter flag FILTER_ALL_TAGS. -/
def FILTER_ALL_TAGS : Nat := 2

/-- Filter flag FILTER_ALL. -/
def FILTER_ALL : Nat := 4

/-- filter_strs from ftag.c: dispatch on the flag bits; zero flags and flag
combinations that select no implemented mode yield null (none). -/
def filter_strs (st : Store) (tagv : List String) (flags : Nat) :
    Option (List String) :=
  if flags = 0 then none
  else if flags &&& FILTER_ALL ≠ 0 then some (filter_all st)
  else
    let ids := get_tag_ids st tagv
    if flags &&& FILTER_ANY_TAG ≠ 0 then filter_ids_any_tag st ids
    else none

/-- list_by_file from ftag.c: SELECT DISTINCT t.name FROM tag AS t, file AS
f, file_tag AS x WHERE t.id = x.tag_id AND x.file_id = f.id AND
f.relative_path = ?.  The engine locates the file row through file_path_uq,
walks file_tag_uq with file_id pinned (tag identifiers ascending), resolves
each tag by rowid, and applies DISTINCT through an arrival-order temporary
b-tree.  The names therefore arrive in ascending tag identifier order.  A
path with no file row, or a file row with no associations, yields a valid
empty cursor, not a null return. -/
def list_by_file (st : Store) (path : String) : Option (List String) :=
  match st.files.find? (fun fr => fr.2 = path) with
  | none => some []
  | some fr =>
    let tids := sortDedupInt ((st.file_tag.filter (fun x => x.1 = fr.1)).map
      (fun x => x.2))
    some (distinctKeepFirst (tids.filterMap
      (fun tid => (st.tags.find? (fun tr => tr.1 = tid)).map (fun tr => tr.2))))

/-- list_all_tags from ftag.c: SELECT DISTINCT name FROM tag, a scan of the
covering unique index tag_name_uq, hence ascending distinct names. -/
def list_all_tags (st : Store) : List String :=
  sortDedup (st.tags.map (fun tr => tr.2))

/-- The hidden-entry test of step_result: the C code compares the first byte
of the row text with the dot character. -/
def isHidden (s : String) : Bool :=
  match s.data with
  | [] => false
  | c :: _ => c = '.'

/-- step_result from ftag.c, on the remaining rows of a cursor: step once;
while the show-hidden flag is off, a row whose text starts with a dot is
skipped and the cursor stepped again; SQLITE_DONE yields none. -/
def step_result (showhidden : Bool) : List String → Option (String × List String)
  | [] => none
  | s :: rest =>
    if showhidden = false ∧ isHidden s then step_result showhidden rest
    else some (s, rest)

/-- The drain loop of main_filter and main_list: pull rows through
step_result until it signals the end of the cursor.  Stated structurally;
the theorem drain_step below identifies it with the iteration of
step_result. -/
def drain (sh : Bool) : List String → List String
  | [] => []
  | s :: rest =>
    if sh = false ∧ isHidden s then drain sh rest else s :: drain sh rest

/-- drain is the iteration of step_result: one pull, then the rest. -/
theorem drain_step (sh : Bool) (rows : List String) :
    drain sh rows =
      match step_result sh rows with
      | none => []
      | some (s, rest) => s :: drain sh rest := by
  induction rows with
  | nil => rfl
  | cons a l ih =>
    by_cases hc : sh = false ∧ isHidden a
    · rw [drain, if_pos hc, step_result, if_pos hc, ih]
    · rw [drain, if_neg hc, step_result, if_neg hc]

/-- The filesystem as seen by ftag: the current working directory as its
list of path components, innermost first (the empty list is the root), the
set of directories that exist (consulted by chdir with an explicit
directory), and the regular files, each carrying the database content it
holds.  Filenames are plain names within one directory; a leading dot-slash
in a filename argument resolves against the directory at hand. -/
structure FileSys where
  cwd : List String
  dirs : List (List String)
  disk : List ((List String × String) × Store)
deriving DecidableEq

/-- Resolve a leading dot-slash: the C code passes names such as
./:memory: to access and sqlite3_open_v2, meaning the plain name in the
directory at hand. -/
def normPath (fn : String) : String :=
  match fn.data with
  | '.' :: '/' :: rest => String.mk rest
  | _ => fn

/-- The file of the given name in the given directory, if any. -/
def lookupDisk (disk : List ((List String × String) × Store))
    (d : List String) (name : String) : Option Store :=
  (disk.find? (fun e => e.1 = (d, name))).map (fun e => e.2)

/-- The ascent loop of chdir_to_db: test access to the file in the
directory at hand; at the root (getcwd fits in two bytes) give up, otherwise
chdir to the parent and repeat. -/
def chdir_search (disk : List ((List String × String) × Store))
    (name : String) : List String → Option (List String)
  | [] => if (lookupDisk disk [] name).isSome then some [] else none
  | c :: p =>
    if (lookupDisk disk (c :: p) name).isSome then some (c :: p)
    else chdir_search disk name p

/-- chdir_to_db from ftag.c: a null filename is an immediate ERROR before
any directory is touched; otherwise ascend from the current directory; on
finding the file stay in that directory and return SUCCESS; on reaching the
root without finding it, fchdir back to the saved start directory (an exact
restore) and return ERROR. -/
def chdir_to_db (fs : FileSys) (fn : Option String) : Int × FileSys :=
  match fn with
  | none => (ERROR, fs)
  | some f =>
    match chdir_search fs.disk (normPath f) fs.cwd with
    | some d => (SUCCESS, { fs with cwd := d })
    | none => (ERROR, fs)

/-- Process state for the entry points: the filesystem and the global
dbconn. -/
structure ProcState where
  fs : FileSys
  dbconn : Option Conn
deriving DecidableEq

/-- The default database filename DB_FILENAME. -/
def DB_FILENAME : String := ".ftagdb"

/-- Outcome of init_db: an ordinary return with a status, or process
termination through exit (taken when chdir to an explicit directory
fails). -/
inductive RunResult where
  | ok (r : Int) (st : ProcState)
  | exited (code : Int)
deriving DecidableEq

/-- The filename computation at the top of init_db from ftag.c: a null
filename falls back to DB_FILENAME; the exact filename :memory: is escaped
to ./:memory: (comment in the source: do not accidentally open memory
db). -/
def initFilename (fn : Option String) : String :=
  match fn with
  | none => DB_FILENAME
  | some f => if f = ":memory:" then "./:memory:" else f

/-- The directory step of init_db: without an explicit directory, run the
ascent search (return value ignored by the C code); with one, chdir to it,
none standing for the exit(ERROR) taken when the chdir fails. -/
def initDirStep (fs : FileSys) (fn1 : String) (dir : Option (List String)) :
    Option FileSys :=
  match dir with
  | none => some (chdir_to_db fs (some fn1)).2
  | some d => if decide (d ∈ fs.dirs) then some { fs with cwd := d } else none

/-- init_db from ftag.c.  A second open while dbconn is live fails first,
before any other action.  After the filename and directory steps,
sqlite3_open_v2 opens the name in the resulting directory read-write,
creating the file and running run_init_db_sql when it does not exist.  The
sqlite engine would open a pure in-memory database only for the exact name
:memory:, which init_db never passes on. -/
def init_db (st : ProcState) (fn : Option String) (dir : Option (List String)) :
    RunResult :=
  if st.dbconn.isSome then .ok ERROR st
  else
    match initDirStep st.fs (initFilename fn) dir with
    | none => .exited ERROR
    | some fs1 =>
      if initFilename fn = ":memory:" then
        .ok SUCCESS { fs := fs1, dbconn := some freshConn }
      else
        match lookupDisk fs1.disk fs1.cwd (normPath (initFilename fn)) with
        | some s =>
          .ok SUCCESS
            { fs := fs1,
              dbconn := some ⟨s, s, false, some (fs1.cwd, normPath (initFilename fn))⟩ }
        | none =>
          .ok SUCCESS
            { fs := { fs1 with
                disk := fs1.disk ++ [((fs1.cwd, normPath (initFilename fn)), emptyStore)] },
              dbconn := some ⟨emptyStore, emptyStore, false,
                some (fs1.cwd, normPath (initFilename fn))⟩ }

/-- init_memory_db from ftag.c: fails if dbconn is live, otherwise opens the
sqlite in-memory database (no filesystem interaction at all) and runs
run_init_db_sql on it. -/
def init_memory_db (st : ProcState) : Int × ProcState :=
  if st.dbconn.isSome then (ERROR, st)
  else (SUCCESS, { st with dbconn := some freshConn })

/-- charsLe is total. -/
theorem charsLe_total : ∀ a b : List Char, charsLe a b = true ∨ charsLe b a = true := by
  intro a
  induction a with
  | nil => intro b; left; rfl
  | cons x xs ih =>
    intro b
    cases b with
    | nil => right; rfl
    | cons y ys =>
      by_cases hxy : x = y
      · subst hxy
        rcases ih ys with h | h
        · left; simpa [charsLe] using h
        · right; simpa [charsLe] using h
      · rcases lt_or_gt_of_ne hxy with h | h
        · left; simp [charsLe, hxy, h]
        · right; simp [charsLe, Ne.symm hxy, h]

/-- charsLe is transitive. -/
theorem charsLe_trans : ∀ a b c : List Char,
    charsLe a b = true → charsLe b c = true → charsLe a c = true := by
  intro a
  induction a with
  | nil => intro b c _ _; rfl
  | cons x xs ih =>
    intro b c hab hbc
    cases b with
    | nil => simp [charsLe] at hab
    | cons y ys =>
      cases c with
      | nil => simp [charsLe] at hbc
      | cons z zs =>
        by_cases hxy : x = y <;> by_cases hyz : y = z
        · subst hxy; subst hyz
          simp only [charsLe, if_pos rfl] at *
          exact ih ys zs hab hbc
        · subst hxy
          simp only [charsLe, if_pos rfl, if_neg hyz] at *
          simpa [charsLe, hyz] using hbc
        · subst hyz
          simp only [charsLe, if_neg hxy] at *
          simpa [charsLe, hxy] using hab
        · simp only [charsLe, if_neg hxy, if_neg hyz, decide_eq_true_eq] at hab hbc
          have hxz : x < z := lt_trans hab hbc
          simp [charsLe, ne_of_lt hxz, hxz]

instance : IsTotal String strLeP :=
  ⟨fun a b => charsLe_total a.data b.data⟩

instance : IsTrans String strLeP :=
  ⟨fun a b c => charsLe_trans a.data b.data c.data⟩

/-- Membership in sortDedup is membership in the input. -/
theorem mem_sortDedup (x : String) (l : List String) :
    x ∈ sortDedup l ↔ x ∈ l := by
  unfold sortDedup
  rw [(List.perm_insertionSort strLeP l.dedup).mem_iff]
  exact List.mem_dedup

/-- sortDedup yields no duplicates. -/
theorem nodup_sortDedup (l : List String) : (sortDedup l).Nodup :=
  (List.perm_insertionSort strLeP l.dedup).symm.nodup l.nodup_dedup

/-- sortDedup yields an ascending list. -/
theorem sorted_sortDedup (l : List String) : List.Sorted strLeP (sortDedup l) :=
  List.sorted_insertionSort strLeP l.dedup

/-- C1: the claim states that a second tag_file call with the same
arguments succeeds without error.  On the code it does not: the third
statement of tag_file is a plain INSERT (no OR IGNORE), so on a repeated
pair it violates the unique index file_tag_uq and sqlite3_step fails, making
tag_file return ERROR.  This theorem evaluates tag_file at the failing
input: on a fresh store the first call succeeds, the second identical call
returns ERROR; the row-count part of the claim does hold (exactly one file,
tag and association row remain visible). -/
theorem tag_file_repeat_violates_unique_index :
    (tag_file freshConn (some "f") (some "t")).1 = SUCCESS ∧
    (tag_file (tag_file freshConn (some "f") (some "t")).2
      (some "f") (some "t")).1 = ERROR ∧
    (tag_file (tag_file freshConn (some "f") (some "t")).2
      (some "f") (some "t")).2.current = ⟨[(1, "f")], [(1, "t")], [(1, 1)]⟩ := by
  decide

/-- C2 counterexample: when the association insert step fails, the
transaction is not aborted and the connection is not left exactly as before
the call.  Concretely, after tagging f with t, a second identical call fails
at the association insert; the resulting connection differs from the one
before the call (a transaction is now open), observable because a further
tag_file call with fresh arguments, which succeeds on the pre-call
connection, fails on the post-call one at BEGIN. -/
theorem tag_file_failed_insert_not_aborted :
    (tag_file (tag_file freshConn (some "f") (some "t")).2
      (some "f") (some "t")).1 = ERROR ∧
    (tag_file (tag_file freshConn (some "f") (some "t")).2
      (some "f") (some "t")).2 ≠ (tag_file freshConn (some "f") (some "t")).2 ∧
    (tag_file (tag_file (tag_file freshConn (some "f") (some "t")).2
      (some "f") (some "t")).2 (some "g") (some "u")).1 = ERROR ∧
    (tag_file (tag_file freshConn (some "f") (some "t")).2
      (some "g") (some "u")).1 = SUCCESS := by
  decide

/-- C2 amended: if a step of tag_file fails, the function returns ERROR
without issuing ROLLBACK or COMMIT: the transaction is left open on the
connection, every subsequent tag_file call fails at BEGIN, and the durable
store is unchanged, the uncommitted changes being discarded only when the
connection closes. -/
theorem tag_file_error_no_rollback (c : Conn) (f t : String)
    (h : c.inTxn = false)
    (herr : (tag_file c (some f) (some t)).1 = ERROR) :
    (tag_file c (some f) (some t)).2.committed = c.committed ∧
    (tag_file c (some f) (some t)).2.inTxn = true ∧
    close_db (tag_file c (some f) (some t)).2 = close_db c ∧
    ∀ f2 t2 : Option String,
      (tag_file (tag_file c (some f) (some t)).2 f2 t2).1 = ERROR := by
  rw [tag_file, h] at herr ⊢
  simp only [Bool.false_eq_true, if_false] at herr ⊢
  cases hm : insertFileTag (insertOrIgnoreFile (insertOrIgnoreTag c.current t) f) f t with
  | none =>
    refine ⟨rfl, rfl, rfl, ?_⟩
    intro f2 t2
    cases f2 with
    | none => rfl
    | some f2v =>
      cases t2 with
      | none => rfl
      | some t2v => rw [tag_file]; rfl
  | some s3 =>
    rw [hm] at herr
    have hse : SUCCESS = ERROR := herr
    exact absurd hse (by decide)

/-- C2 witness: the amended theorem applied at the concrete failing call of
the counterexample. -/
theorem tag_file_error_no_rollback_witness :
    (tag_file freshConn (some "f") (some "t")).2.inTxn = false ∧
    (tag_file (tag_file freshConn (some "f") (some "t")).2
      (some "f") (some "t")).1 = ERROR ∧
    ((tag_file (tag_file freshConn (some "f") (some "t")).2
        (some "f") (some "t")).2.committed
      = (tag_file freshConn (some "f") (some "t")).2.committed ∧
    (tag_file (tag_file freshConn (some "f") (some "t")).2
      (some "f") (some "t")).2.inTxn = true ∧
    close_db (tag_file (tag_file freshConn (some "f") (some "t")).2
      (some "f") (some "t")).2
      = close_db (tag_file freshConn (some "f") (some "t")).2 ∧
    ∀ f2 t2 : Option String,
      (tag_file (tag_file (tag_file freshConn (some "f") (some "t")).2
        (some "f") (some "t")).2 f2 t2).1 = ERROR) :=
  ⟨by decide, by decide,
    tag_file_error_no_rollback _ "f" "t" (by decide) (by decide)⟩

/-- C3 counterexample: tag_file does not reject empty strings; it checks
only for null pointers.  On a fresh store, tagging the empty path succeeds
and creates a file row whose path is the empty string, and tagging with the
empty tag name succeeds and creates a tag row whose name is the empty
string. -/
theorem tag_file_empty_args_accepted :
    (tag_file freshConn (some "") (some "t")).1 = SUCCESS ∧
    (tag_file freshConn (some "") (some "t")).2.committed.files = [(1, "")] ∧
    (tag_file freshConn (some "f") (some "")).1 = SUCCESS ∧
    (tag_file freshConn (some "f") (some "")).2.committed.tags = [(1, "")] := by
  decide

/-- C3 amended: tag_file fails immediately, leaving the connection
completely unchanged, exactly when an argument is absent (a null pointer);
empty strings are accepted and create rows with empty path or name. -/
theorem tag_file_null_args_rejected (c : Conn) (x : Option String) :
    tag_file c none x = (ERROR, c) ∧ tag_file c x none = (ERROR, c) := by
  cases x <;> exact ⟨rfl, rfl⟩

/-- If the file is found in no suffix of the current directory path (the
directory itself, every ancestor, and the root), the ascent search comes up
empty. -/
theorem chdir_search_eq_none (disk : List ((List String × String) × Store))
    (name : String) :
    ∀ d : List String,
      (∀ k ≤ d.length, (lookupDisk disk (d.drop k) name).isSome = false) →
      chdir_search disk name d = none := by
  intro d
  induction d with
  | nil =>
    intro h
    have h0 := h 0 (Nat.le_refl 0)
    simp only [List.drop] at h0
    simp [chdir_search, h0]
  | cons c p ih =>
    intro h
    have h0 := h 0 (Nat.zero_le _)
    simp only [List.drop] at h0
    have hrest := ih (fun k hk => h (k + 1) (Nat.succ_le_succ hk))
    simp [chdir_search, h0, hrest]

/-- C7: the path resolver is side-effect-free on failure.  When the ascent
reaches the root without finding the store file (no suffix directory of the
working path holds a readable file of that name), chdir_to_db restores the
saved start directory exactly, returning ERROR with the filesystem
unchanged; and a null filename returns ERROR before any directory is
touched. -/
theorem chdir_to_db_failure_free_of_side_effects (fs : FileSys) (f : String)
    (h : ∀ k ≤ fs.cwd.length,
      (lookupDisk fs.disk (fs.cwd.drop k) (normPath f)).isSome = false) :
    chdir_to_db fs (some f) = (ERROR, fs) ∧ chdir_to_db fs none = (ERROR, fs) := by
  have hs := chdir_search_eq_none fs.disk (normPath f) fs.cwd h
  exact ⟨by simp [chdir_to_db, hs], rfl⟩

/-- C7 witness: a two-level working directory and a disk holding only an
unrelated file elsewhere. -/
theorem chdir_to_db_failure_free_of_side_effects_witness :
    (∀ k ≤ (["a", "b"] : List String).length,
      (lookupDisk [(((["c"] : List String), "other"), emptyStore)]
        ((["a", "b"] : List String).drop k) (normPath "db")).isSome = false) ∧
    (chdir_to_db ⟨["a", "b"], [], [(((["c"] : List String), "other"), emptyStore)]⟩
        (some "db")
      = (ERROR, ⟨["a", "b"], [], [(((["c"] : List String), "other"), emptyStore)]⟩) ∧
    chdir_to_db ⟨["a", "b"], [], [(((["c"] : List String), "other"), emptyStore)]⟩ none
      = (ERROR, ⟨["a", "b"], [], [(((["c"] : List String), "other"), emptyStore)]⟩)) :=
  ⟨by decide,
    chdir_to_db_failure_free_of_side_effects
      ⟨["a", "b"], [], [(((["c"] : List String), "other"), emptyStore)]⟩ "db"
      (by decide)⟩

/-- C8: hidden-entry filtering happens at the stream layer.  While the
show-hidden flag is off, a pull through step_result never returns a row
whose text begins with a dot, and draining a cursor yields exactly the rows
that do not begin with a dot, in order; with the flag on, draining yields
every row, hidden ones alongside the others in the same order. -/
theorem step_result_hidden_filtering (rows : List String) :
    ((step_result false rows).all (fun pr => !(isHidden pr.1))) = true ∧
    drain false rows = rows.filter (fun s => !(isHidden s)) ∧
    drain true rows = rows := by
  refine ⟨?_, ?_, ?_⟩
  · induction rows with
    | nil => rfl
    | cons a l ih =>
      by_cases hc : isHidden a
      · simpa [step_result, hc] using ih
      · simp [step_result, hc]
  · induction rows with
    | nil => rfl
    | cons a l ih =>
      by_cases hc : isHidden a
      · simp [drain, hc, ih]
      · simp [drain, hc, ih]
  · induction rows with
    | nil => rfl
    | cons a l ih => simp [drain, ih]

/-- C9: at most one store handle per process.  While dbconn is live, both
init_db (for any filename and directory arguments) and init_memory_db fail
with ERROR as their very first action, leaving the process state, the
filesystem and the existing connection untouched. -/
theorem second_open_fails (st : ProcState) (c : Conn) (h : st.dbconn = some c)
    (fn : Option String) (dir : Option (List String)) :
    init_db st fn dir = .ok ERROR st ∧ init_memory_db st = (ERROR, st) := by
  have hs : st.dbconn.isSome = true := by rw [h]; rfl
  exact ⟨by simp [init_db, hs], by simp [init_memory_db, hs]⟩

/-- C9 witness: a process state with a live fresh connection. -/
theorem second_open_fails_witness :
    (⟨⟨[], [], []⟩, some freshConn⟩ : ProcState).dbconn = some freshConn ∧
    (init_db ⟨⟨[], [], []⟩, some freshConn⟩ (some ":memory:") none
        = .ok ERROR ⟨⟨[], [], []⟩, some freshConn⟩ ∧
      init_memory_db ⟨⟨[], [], []⟩, some freshConn⟩
        = (ERROR, ⟨⟨[], [], []⟩, some freshConn⟩)) :=
  ⟨rfl, second_open_fails ⟨⟨[], [], []⟩, some freshConn⟩ freshConn rfl
    (some ":memory:") none⟩

/-- C10: listing the tags of a path with no file row, or whose file row has
no associations, yields a valid empty cursor (some []), not a failure
(none). -/
theorem list_by_file_no_rows_empty_cursor (st : Store) (p : String)
    (h : ∀ fr ∈ st.files, fr.2 ≠ p ∨ ∀ x ∈ st.file_tag, x.1 ≠ fr.1) :
    list_by_file st p = some [] := by
  cases hf : st.files.find? (fun fr => fr.2 = p) with
  | none => simp [list_by_file, hf]
  | some fr =>
    have hmem := List.mem_of_find?_eq_some hf
    have hp : fr.2 = p := by simpa using List.find?_some hf
    rcases h fr hmem with h1 | h2
    · exact absurd hp h1
    · have hfilter : st.file_tag.filter (fun x => x.1 = fr.1) = [] := by
        rw [List.filter_eq_nil_iff]
        intro x hx
        simpa using h2 x hx
      simp [list_by_file, hf, hfilter, sortDedupInt, distinctKeepFirst]

/-- C10 witness: a store holding a file row for p0 with no associations and
a second, associated file; list_by_file on p0 and on an absent path both
yield the empty cursor. -/
theorem list_by_file_no_rows_empty_cursor_witness :
    (∀ fr ∈ (⟨[(1, "p0"), (2, "q")], [(1, "t")], [(2, 1)]⟩ : Store).files,
      fr.2 ≠ "p0" ∨
        ∀ x ∈ (⟨[(1, "p0"), (2, "q")], [(1, "t")], [(2, 1)]⟩ : Store).file_tag,
          x.1 ≠ fr.1) ∧
    list_by_file ⟨[(1, "p0"), (2, "q")], [(1, "t")], [(2, 1)]⟩ "p0" = some [] :=
  ⟨by decide,
    list_by_file_no_rows_empty_cursor
      ⟨[(1, "p0"), (2, "q")], [(1, "t")], [(2, 1)]⟩ "p0" (by decide)⟩

/-- Membership in one filter arm: a path is produced by the arm for tag
identifier t exactly when some file row carries it and is associated to t. -/
theorem mem_pathsWithTagId (st : Store) (t : Int) (p : String) :
    p ∈ pathsWithTagId st t ↔
      ∃ fr ∈ st.files, fr.2 = p ∧ (fr.1, t) ∈ st.file_tag := by
  unfold pathsWithTagId
  rw [mem_sortDedup]
  simp only [List.mem_map, List.mem_filter, decide_eq_true_eq]
  constructor
  · rintro ⟨fr, ⟨hm, ha⟩, hp⟩
    exact ⟨fr, hm, hp, ha⟩
  · rintro ⟨fr, hm, hp, ha⟩
    exact ⟨fr, ⟨hm, ha⟩, hp⟩

/-- Resolving a name and collecting its arm is the same as querying along
any tag row of that name, provided tag names are unique (the tag_name_uq
index) and file_tag identifiers are positive (they are copied from existing
tag rowids, and -1 is the sentinel for an unknown name). -/
theorem mem_pathsWithTagId_resolve (st : Store)
    (hwf1 : (st.tags.map (fun tr => tr.2)).Nodup)
    (hwf2 : ∀ x ∈ st.file_tag, 0 < x.2) (t : String) (p : String) :
    p ∈ pathsWithTagId st (resolveTagId st t) ↔
      ∃ tr ∈ st.tags, tr.2 = t ∧
        ∃ fr ∈ st.files, fr.2 = p ∧ (fr.1, tr.1) ∈ st.file_tag := by
  unfold resolveTagId
  cases hfind : st.tags.find? (fun tr => tr.2 = t) with
  | none =>
    rw [List.find?_eq_none] at hfind
    constructor
    · intro hmem
      rw [mem_pathsWithTagId] at hmem
      rcases hmem with ⟨fr, _, _, ha⟩
      have hneg : (0 : Int) < -1 := hwf2 (fr.1, -1) ha
      exact absurd hneg (by decide)
    · rintro ⟨tr, hm, ht, _⟩
      exact absurd (decide_eq_true_eq.mpr ht) (by simpa using hfind tr hm)
  | some tr0 =>
    have hm0 := List.mem_of_find?_eq_some hfind
    have ht0 : tr0.2 = t := by simpa using List.find?_some hfind
    rw [mem_pathsWithTagId]
    constructor
    · rintro ⟨fr, hm, hp, ha⟩
      exact ⟨tr0, hm0, ht0, fr, hm, hp, ha⟩
    · rintro ⟨tr, hm, ht, fr, hfm, hp, ha⟩
      have htr : tr = tr0 :=
        List.inj_on_of_nodup_map hwf1 hm hm0 (by rw [ht, ht0])
      exact ⟨fr, hfm, hp, htr ▸ ha⟩

/-- C4: the tag-set filter computes the distinct union.  For any well
formed store (unique tag names, positive association identifiers) and any
nonempty list of tag names, filter_strs in the any-tag mode succeeds and
returns a duplicate-free list holding exactly the file paths associated
with at least one tag row named by the list; a name matching no tag row
contributes nothing and causes no failure, for every arity. -/
theorem filter_any_tag_is_distinct_union (st : Store)
    (hwf1 : (st.tags.map (fun tr => tr.2)).Nodup)
    (hwf2 : ∀ x ∈ st.file_tag, 0 < x.2)
    (tagv : List String) (hne : tagv ≠ []) :
    ∃ l, filter_strs st tagv FILTER_ANY_TAG = some l ∧ l.Nodup ∧
      ∀ p, p ∈ l ↔ ∃ t ∈ tagv, ∃ tr ∈ st.tags, tr.2 = t ∧
        ∃ fr ∈ st.files, fr.2 = p ∧ (fr.1, tr.1) ∈ st.file_tag := by
  have hids : get_tag_ids st tagv ≠ [] := by
    unfold get_tag_ids
    simpa using hne
  have hne2 : (get_tag_ids st tagv).isEmpty = false := by
    cases hg : get_tag_ids st tagv with
    | nil => exact absurd hg hids
    | cons a l => rfl
  refine ⟨sortDedup ((get_tag_ids st tagv).flatMap (fun t => pathsWithTagId st t)),
    ?_, nodup_sortDedup _, ?_⟩
  · show filter_strs st tagv FILTER_ANY_TAG = _
    unfold filter_strs filter_ids_any_tag
    norm_num [FILTER_ANY_TAG, FILTER_ALL, hne2]
  · intro p
    rw [mem_sortDedup]
    simp only [List.mem_flatMap, get_tag_ids, List.mem_map]
    constructor
    · rintro ⟨i, ⟨t, htm, hres⟩, hmem⟩
      rw [← hres] at hmem
      rw [mem_pathsWithTagId_resolve st hwf1 hwf2] at hmem
      exact ⟨t, htm, hmem⟩
    · rintro ⟨t, htm, hrest⟩
      exact ⟨resolveTagId st t, ⟨t, htm, rfl⟩,
        (mem_pathsWithTagId_resolve st hwf1 hwf2 t p).mpr hrest⟩

/-- C4 witness: the theorem applied at a concrete store holding files b and
a both tagged y, queried for the names y and an unknown name. -/
theorem filter_any_tag_is_distinct_union_witness :
    ((⟨[(1, "b"), (2, "a")], [(1, "y")], [(1, 1), (2, 1)]⟩ : Store).tags.map
      (fun tr => tr.2)).Nodup ∧
    (∀ x ∈ (⟨[(1, "b"), (2, "a")], [(1, "y")], [(1, 1), (2, 1)]⟩ : Store).file_tag,
      0 < x.2) ∧
    (["y", "nosuch"] : List String) ≠ [] ∧
    (∃ l, filter_strs ⟨[(1, "b"), (2, "a")], [(1, "y")], [(1, 1), (2, 1)]⟩
        ["y", "nosuch"] FILTER_ANY_TAG = some l ∧ l.Nodup ∧
      ∀ p, p ∈ l ↔ ∃ t ∈ (["y", "nosuch"] : List String),
        ∃ tr ∈ (⟨[(1, "b"), (2, "a")], [(1, "y")], [(1, 1), (2, 1)]⟩ : Store).tags,
          tr.2 = t ∧
          ∃ fr ∈ (⟨[(1, "b"), (2, "a")], [(1, "y")],
              [(1, 1), (2, 1)]⟩ : Store).files,
            fr.2 = p ∧ (fr.1, tr.1) ∈
              (⟨[(1, "b"), (2, "a")], [(1, "y")], [(1, 1), (2, 1)]⟩ : Store).file_tag) :=
  ⟨by decide, by decide, by decide,
    filter_any_tag_is_distinct_union
      ⟨[(1, "b"), (2, "a")], [(1, "y")], [(1, 1), (2, 1)]⟩
      (by decide) (by decide) ["y", "nosuch"] (by decide)⟩

/-- Arrival-order DISTINCT never yields duplicates. -/
theorem nodup_distinctKeepFirst : ∀ l : List String, (distinctKeepFirst l).Nodup := by
  intro l
  induction l with
  | nil => exact List.nodup_nil
  | cons x rest ih =>
    rw [distinctKeepFirst]
    refine List.nodup_cons.mpr ⟨?_, ih.filter _⟩
    intro hx
    have hne := List.of_mem_filter hx
    simp at hne

/-- C5 counterexample: the tags-of-a-file mode does not return names in
ascending order.  Tag file a with y and then with x (so tag y receives
identifier 1 and tag x identifier 2); listing the tags of a yields the
names in identifier order y, x, which is not ascending name order. -/
theorem list_by_file_not_name_ordered :
    list_by_file (tag_file (tag_file freshConn (some "a") (some "y")).2
        (some "a") (some "x")).2.committed "a" = some ["y", "x"] ∧
    ¬ List.Sorted strLeP ["y", "x"] := by
  constructor
  · decide
  · intro h
    have hyx : strLeP "y" "x" :=
      (List.pairwise_cons.mp h).1 "x" (List.mem_singleton.mpr rfl)
    exact absurd hyx (by decide)

/-- C5 amended: the by-single-tag and by-tag-set modes (filter_ids_any_tag,
any arity) and the all-files and all-tags modes yield distinct rows in
ascending BINARY-collation order, and the tags-of-a-file mode yields
distinct names, but in tag identifier (creation) order rather than name
order. -/
theorem query_mode_ordering (st : Store) (ids : List Int) (l : List String)
    (h : filter_ids_any_tag st ids = some l) :
    List.Sorted strLeP l ∧ l.Nodup ∧
    List.Sorted strLeP (filter_all st) ∧ (filter_all st).Nodup ∧
    List.Sorted strLeP (list_all_tags st) ∧ (list_all_tags st).Nodup ∧
    ∀ p m, list_by_file st p = some m → m.Nodup := by
  have hl : ∃ ids2 : List Int, l = sortDedup (ids2.flatMap (fun t => pathsWithTagId st t)) := by
    unfold filter_ids_any_tag at h
    by_cases he : ids.isEmpty
    · rw [if_pos he] at h
      exact absurd h (by simp)
    · rw [if_neg he] at h
      exact ⟨ids, (Option.some_injective _ h).symm⟩
  rcases hl with ⟨ids2, hl⟩
  subst hl
  refine ⟨sorted_sortDedup _, nodup_sortDedup _, sorted_sortDedup _,
    nodup_sortDedup _, sorted_sortDedup _, nodup_sortDedup _, ?_⟩
  intro p m hm
  cases hf : st.files.find? (fun fr => fr.2 = p) with
  | none =>
    rw [list_by_file, hf] at hm
    cases hm
    exact List.nodup_nil
  | some fr =>
    rw [list_by_file, hf] at hm
    cases hm
    exact nodup_distinctKeepFirst _

/-- C5 witness: the amended theorem applied at a concrete store with two
files and two tags. -/
theorem query_mode_ordering_witness :
    filter_ids_any_tag ⟨[(1, "b"), (2, "a")], [(1, "y"), (2, "x")], [(1, 1), (2, 2)]⟩
        [1, 2] = some ["a", "b"] ∧
    (List.Sorted strLeP ["a", "b"] ∧ (["a", "b"] : List String).Nodup ∧
      List.Sorted strLeP (filter_all
        ⟨[(1, "b"), (2, "a")], [(1, "y"), (2, "x")], [(1, 1), (2, 2)]⟩) ∧
      (filter_all
        ⟨[(1, "b"), (2, "a")], [(1, "y"), (2, "x")], [(1, 1), (2, 2)]⟩).Nodup ∧
      List.Sorted strLeP (list_all_tags
        ⟨[(1, "b"), (2, "a")], [(1, "y"), (2, "x")], [(1, 1), (2, 2)]⟩) ∧
      (list_all_tags
        ⟨[(1, "b"), (2, "a")], [(1, "y"), (2, "x")], [(1, 1), (2, 2)]⟩).Nodup ∧
      ∀ p m, list_by_file
          ⟨[(1, "b"), (2, "a")], [(1, "y"), (2, "x")], [(1, 1), (2, 2)]⟩ p = some m →
        m.Nodup) :=
  ⟨by decide,
    query_mode_ordering ⟨[(1, "b"), (2, "a")], [(1, "y"), (2, "x")], [(1, 1), (2, 2)]⟩
      [1, 2] ["a", "b"] (by decide)⟩

/-- The filename that init_db hands to sqlite3_open_v2 is never the
in-memory sentinel: a null filename becomes DB_FILENAME and the sentinel
itself is escaped to a dot-slash form. -/
theorem init_db_filename_never_sentinel (fn : Option String) :
    initFilename fn ≠ ":memory:" := by
  cases fn with
  | none => decide
  | some f =>
    show (if f = ":memory:" then "./:memory:" else f) ≠ ":memory:"
    by_cases hf : f = ":memory:"
    · rw [if_pos hf]
      decide
    · rw [if_neg hf]
      exact hf

/-- A file just written is on the disk. -/
theorem lookupDisk_append_self (disk : List ((List String × String) × Store))
    (d : List String) (n : String) (s : Store) :
    (lookupDisk (disk ++ [((d, n), s)]) d n).isSome = true := by
  induction disk with
  | nil => simp [lookupDisk, List.find?]
  | cons e rest ih =>
    by_cases he : e.1 = (d, n)
    · simp [lookupDisk, List.find?, he]
    · rw [List.cons_append]
      unfold lookupDisk at ih ⊢
      rw [List.find?]
      simp only [he, decide_eq_true_eq, if_false, decide_eq_false_iff_not]
      exact ih

/-- C6 counterexample: init_db given the sentinel filename does not open an
in-memory store and does not bypass directory resolution.  In a directory
home with an empty disk it creates an on-disk file named :memory: in home
and opens it; and when an on-disk file named :memory: exists in the parent
directory, the ascent search finds it and changes the working directory to
the parent before opening that on-disk file. -/
theorem init_db_memory_sentinel_opens_disk_file :
    init_db ⟨⟨["home"], [], []⟩, none⟩ (some ":memory:") none
      = .ok SUCCESS ⟨⟨["home"], [], [(((["home"] : List String), ":memory:"), emptyStore)]⟩,
          some ⟨emptyStore, emptyStore, false, some (["home"], ":memory:")⟩⟩ ∧
    init_db ⟨⟨["sub", "home"], [],
        [(((["home"] : List String), ":memory:"), ⟨[(1, "f")], [], []⟩)]⟩, none⟩
        (some ":memory:") none
      = .ok SUCCESS ⟨⟨["home"], [],
          [(((["home"] : List String), ":memory:"), ⟨[(1, "f")], [], []⟩)]⟩,
          some ⟨⟨[(1, "f")], [], []⟩, ⟨[(1, "f")], [], []⟩, false,
            some (["home"], ":memory:")⟩⟩ := by
  exact ⟨by decide, by decide⟩

/-- Any successful init_db leaves a connection backed by the on-disk file
whose name is the normalized open filename, present in the resolved working
directory. -/
theorem init_db_ok_location (st : ProcState) (fn : Option String)
    (dir : Option (List String)) (h : st.dbconn.isSome = false) (r : Int)
    (st1 : ProcState) (hinit : init_db st fn dir = .ok r st1) :
    ∃ c, st1.dbconn = some c ∧
      c.location = some (st1.fs.cwd, normPath (initFilename fn)) ∧
      (lookupDisk st1.fs.disk st1.fs.cwd (normPath (initFilename fn))).isSome
        = true := by
  rw [init_db, h] at hinit
  rw [if_neg (by decide : ¬ (false = true))] at hinit
  split at hinit
  · cases hinit
  · rename_i fs1 hdir
    rw [if_neg (init_db_filename_never_sentinel fn)] at hinit
    split at hinit
    · rename_i s hlook
      cases hinit
      exact ⟨_, rfl, rfl, by rw [hlook]; rfl⟩
    · rename_i hlook
      cases hinit
      exact ⟨_, rfl, rfl,
        lookupDisk_append_self fs1.disk fs1.cwd (normPath (initFilename fn)) emptyStore⟩

/-- C6 amended: init_db escapes the sentinel precisely so that it never
opens an in-memory store: for any filename argument, a successful open
yields a connection backed by an on-disk location, and for the sentinel in
particular the backing file is an on-disk file named :memory: present in the
resolved working directory; the purely in-memory, non-persistent store is
provided only by the separate entry point init_memory_db, which takes no
filename and leaves the filesystem completely untouched. -/
theorem init_db_sentinel_escaped (st : ProcState) (fn : Option String)
    (dir : Option (List String)) (h : st.dbconn = none) :
    (∀ r st1, init_db st fn dir = .ok r st1 →
      ∃ c, st1.dbconn = some c ∧ c.location.isSome = true) ∧
    (∀ r st1, init_db st (some ":memory:") dir = .ok r st1 →
      ∃ c, st1.dbconn = some c ∧ c.location = some (st1.fs.cwd, ":memory:") ∧
        (lookupDisk st1.fs.disk st1.fs.cwd ":memory:").isSome = true) ∧
    init_memory_db st = (SUCCESS, { st with dbconn := some freshConn }) := by
  have hnone : st.dbconn.isSome = false := by rw [h]; rfl
  refine ⟨?_, ?_, by simp [init_memory_db, hnone]⟩
  · intro r st1 hinit
    obtain ⟨c, hc1, hc2, hc3⟩ := init_db_ok_location st fn dir hnone r st1 hinit
    exact ⟨c, hc1, by rw [hc2]; rfl⟩
  · intro r st1 hinit
    obtain ⟨c, hc1, hc2, hc3⟩ :=
      init_db_ok_location st (some ":memory:") dir hnone r st1 hinit
    have hm : normPath (initFilename (some ":memory:")) = ":memory:" := by decide
    rw [hm] at hc2 hc3
    exact ⟨c, hc1, hc2, hc3⟩

/-- C6 witness: the amended theorem applied at the first counterexample
state. -/
theorem init_db_sentinel_escaped_witness :
    (⟨⟨["home"], [], []⟩, none⟩ : ProcState).dbconn = none ∧
    ((∀ r st1, init_db ⟨⟨["home"], [], []⟩, none⟩ (some "db") none = .ok r st1 →
      ∃ c, st1.dbconn = some c ∧ c.location.isSome = true) ∧
    (∀ r st1, init_db ⟨⟨["home"], [], []⟩, none⟩ (some ":memory:") none = .ok r st1 →
      ∃ c, st1.dbconn = some c ∧ c.location = some (st1.fs.cwd, ":memory:") ∧
        (lookupDisk st1.fs.disk st1.fs.cwd ":memory:").isSome = true) ∧
    init_memory_db ⟨⟨["home"], [], []⟩, none⟩
      = (SUCCESS, { (⟨⟨["home"], [], []⟩, none⟩ : ProcState) with
          dbconn := some freshConn })) :=
  ⟨rfl, init_db_sentinel_escaped ⟨⟨["home"], [], []⟩, none⟩ (some "db") none rfl⟩
